import Mathlib

/-!
Verification of the EV battery-health analytics engine (`soh_analysis.py`).

The engine consumes a vehicle profile and an ordered list of telemetry
samples and produces a State-of-Health estimate, equivalent-full-cycle
counts and anomaly catalogs.  We embed the Python source shallowly:
floats become rationals, dictionaries become structures, the
`BatteryDataProcessor` object becomes an explicit state record threaded
through a fold, and the fallible list indexing (`last_log[0]` /
`last_log[-1]` on a possibly-empty buffer) becomes an `Option`.
-/

namespace EvStats

/-- `round(x, 2)` at the integer level: Python's banker's rounding
(round half to even).  For non-tie arguments this agrees with rounding
to the nearest integer. -/
def roundHalfEven (q : ℚ) : ℤ :=
  if Int.fract q = 1/2 then
    (if 2 ∣ ⌊q⌋ then ⌊q⌋ else ⌊q⌋ + 1)
  else
    round q

/-- Python's `round(x, 2)`: round to two decimal places. -/
def round2 (q : ℚ) : ℚ := (roundHalfEven (q * 100) : ℚ) / 100

/-- Python's `max` over a list; the engine only applies it to the
non-empty `cell_voltages` / `cell_temps_c` sequences. -/
def listMax : List ℚ → ℚ
  | [] => 0
  | x :: xs => xs.foldl max x

/-- Python's `min` over a list; the engine only applies it to the
non-empty `cell_voltages` / `cell_temps_c` sequences. -/
def listMin : List ℚ → ℚ
  | [] => 0
  | x :: xs => xs.foldl min x

-- --------- Constants & thresholds (soh_analysis.py lines 13-34) ----------

inductive EventKind where
  | charge
  | drive
  | rest
deriving DecidableEq, Repr

/-- `MIN_DELTA_SOC = 5.0` -/
def MIN_DELTA_SOC : ℚ := 5
/-- `MAX_CELL_VOLTAGE = 4.2` -/
def MAX_CELL_VOLTAGE : ℚ := 42/10
/-- `MIN_CELL_VOLTAGE = 2.5` -/
def MIN_CELL_VOLTAGE : ℚ := 5/2
/-- `IMBALANCE_MV_AT_REST = 30.0` -/
def IMBALANCE_MV_AT_REST : ℚ := 30
/-- `IMBALANCE_MV_UNDER_LOAD = 60.0` -/
def IMBALANCE_MV_UNDER_LOAD : ℚ := 60
/-- `C_RATE_LOAD_THRESHOLD = 0.1` -/
def C_RATE_LOAD_THRESHOLD : ℚ := 1/10
/-- `MAX_CELL_TEMP_C = 55.0` -/
def MAX_CELL_TEMP_C : ℚ := 55
/-- `MIN_CELL_TEMP_C = 0.0` -/
def MIN_CELL_TEMP_C : ℚ := 0
/-- `MAX_CELLS_TEMP_DIFFERENCE = 5.0` -/
def MAX_CELLS_TEMP_DIFFERENCE : ℚ := 5

-- --------- Data model ----------

/-- One telemetry log entry (a `log` dictionary of the input file). -/
structure Log where
  ts : String
  event : EventKind
  soc : ℚ
  energy_in_kwh : ℚ
  pack_current : ℚ
  cell_voltages : List ℚ
  cell_temps_c : List ℚ
deriving DecidableEq, Repr

/-- The `vehicle` dictionary of the input file. -/
structure VehicleProfile where
  vin : String
  make : String
  model : String
  year : Int
  design_capacity_kwh : ℚ
  nominal_pack_voltage : ℚ
deriving DecidableEq, Repr

/-- The whole input structure: `{"vehicle": ..., "logs": ...}`.
`logs = none` models an absent `"logs"` key (`log_data.get("logs")`
returns `None`). -/
structure LogData where
  vehicle : VehicleProfile
  logs : Option (List Log)
deriving DecidableEq, Repr

/-- A voltage-range anomaly record (dict built at lines 164-180). -/
structure VRangeAnomaly where
  min_voltage : ℚ
  max_voltage : ℚ
  max_allowed_voltage : ℚ
  min_allowed_voltage : ℚ
  comment : String
  timestamp : String
deriving DecidableEq, Repr

/-- A voltage-imbalance anomaly record (dict built at lines 196-201). -/
structure VDiffAnomaly where
  voltage_difference : ℚ
  comment : String
  threshold : ℚ
  timestamp : String
deriving DecidableEq, Repr

/-- A temperature-range anomaly record (dict built at lines 230-247). -/
structure TRangeAnomaly where
  min_cell_temperature : ℚ
  max_cell_temperature : ℚ
  min_allowed_cell_temperature : ℚ
  max_allowed_cell_temperature : ℚ
  comment : String
  timestamp : String
deriving DecidableEq, Repr

/-- A temperature-imbalance anomaly record (dict built at lines 250-255). -/
structure TDiffAnomaly where
  cells_temperature_difference : ℚ
  max_cells_temperature_difference : ℚ
  comment : String
  timestamp : String
deriving DecidableEq, Repr

/-- The mutable fields of `BatteryDataProcessor` (lines 40-62).
`current_charge` stores `(soc, energy_in_kwh)` pairs. -/
structure ProcState where
  current_charge : List (ℚ × ℚ)
  reached_full_charge : Bool
  charge_end : Bool
  charge_results : List ℚ
  design_capacity_kwh : ℚ
  nominal_pack_voltage : ℚ
  last_soc : Option ℚ
  cumulative_soc_delta : ℚ
  cumulative_charge_soc_delta : ℚ
  voltage_difference_anomalies : List VDiffAnomaly
  voltage_range_anomalies : List VRangeAnomaly
  temperature_difference_anomalies : List TDiffAnomaly
  temperature_range_anomalies : List TRangeAnomaly
deriving DecidableEq, Repr

/-- `BatteryDataProcessor.__init__` (lines 40-62). -/
def initProcessor (design_capacity_kwh nominal_pack_voltage : ℚ) : ProcState where
  current_charge := []
  reached_full_charge := false
  charge_end := false
  charge_results := []
  design_capacity_kwh := design_capacity_kwh
  nominal_pack_voltage := nominal_pack_voltage
  last_soc := none
  cumulative_soc_delta := 0
  cumulative_charge_soc_delta := 0
  voltage_difference_anomalies := []
  voltage_range_anomalies := []
  temperature_difference_anomalies := []
  temperature_range_anomalies := []

-- --------- Charge-cycle segmentation & SoH ----------

/-- `get_single_charge_result` (lines 64-76). -/
def get_single_charge_result (cumulative_charge delta_soc design_capacity_kwh : ℚ) : ℚ :=
  let estimated_capacity := cumulative_charge * 100 / delta_soc
  let charge_soh := estimated_capacity / design_capacity_kwh * 100
  charge_soh

/-- First block of `handle_battery_charging_event` (lines 83-90): append
the `(soc, energy_in_kwh)` pair to the buffer unless the full-charge flag
is already set. -/
def appendPhase (s : ProcState) (log : Log) : ProcState :=
  if s.reached_full_charge then s
  else { s with current_charge := s.current_charge ++ [(log.soc, log.energy_in_kwh)] }

/-- Second block of `handle_battery_charging_event` (line 93):
`self.reached_full_charge = floor(event_log['soc']) == 100`. -/
def flagPhase (s : ProcState) (log : Log) : ProcState :=
  { s with reached_full_charge := decide (⌊log.soc⌋ = 100) }

/-- Third block of `handle_battery_charging_event` (lines 96-115): on a
raised `charge_end` flag, read the buffered run and compute the cycle
result.  `last_log[0]` / `last_log[-1]` on an empty buffer raise in
Python; that is the `none` case. -/
def closurePhase (s : ProcState) : Option ProcState :=
  if s.charge_end then
    match h : s.current_charge with
    | [] => none
    | first :: rest =>
      let last_log := first :: rest
      let start_soc := first.1
      let end_soc := (last_log.getLast (by simp)).1
      let cumulative_charge := (last_log.map Prod.snd).sum
      let delta_soc := |end_soc - start_soc|
      let charge_results :=
        if delta_soc > MIN_DELTA_SOC then
          s.charge_results ++ [get_single_charge_result cumulative_charge delta_soc s.design_capacity_kwh]
        else s.charge_results
      some { s with
              charge_results := charge_results
              charge_end := false
              reached_full_charge := false
              current_charge := [] }
  else some s

/-- `handle_battery_charging_event` (lines 78-115): the three blocks in
their source order. -/
def handle_battery_charging_event (s : ProcState) (log : Log) : Option ProcState :=
  closurePhase (flagPhase (appendPhase s log) log)

/-- `get_average_soh` (lines 117-122). -/
def get_average_soh (s : ProcState) : Option ℚ :=
  match s.charge_results with
  | [] => none
  | l@(_ :: _) => some (round2 (l.sum / (l.length : ℚ)))

-- --------- Cycle counting ----------

/-- `handle_overall_soc_changes` (lines 124-137). -/
def handle_overall_soc_changes (s : ProcState) (current_soc : ℚ) (event : EventKind) : ProcState :=
  match s.last_soc with
  | none => { s with last_soc := some current_soc }
  | some last =>
    let current_soc_delta := |current_soc - last|
    let s := { s with
                cumulative_soc_delta := s.cumulative_soc_delta + current_soc_delta
                last_soc := some current_soc }
    if event = EventKind.charge then
      { s with cumulative_charge_soc_delta := s.cumulative_charge_soc_delta + current_soc_delta }
    else s

/-- The record returned by `get_average_charge_discharge_cycles_data`. -/
structure CdcData where
  overall_cycles : ℚ
  charge_cycles : ℚ
  discharge_cycles : ℚ
deriving DecidableEq, Repr

/-- `get_average_charge_discharge_cycles_data` (lines 140-150). -/
def get_average_charge_discharge_cycles_data (s : ProcState) : CdcData :=
  let overall_cycles := round2 (s.cumulative_soc_delta / 100)
  let charge_cycles := round2 (s.cumulative_charge_soc_delta / 100)
  let discharge_cycles := round2 (overall_cycles - charge_cycles)
  { overall_cycles := overall_cycles
    charge_cycles := charge_cycles
    discharge_cycles := discharge_cycles }

-- --------- Anomaly detection ----------

/-- The `voltage_range_anomalies` list built inside `get_voltage_anomalies`
(lines 155-180): the "too high" record, then the "too low" record. -/
def voltage_range_list (log : Log) : List VRangeAnomaly :=
  let min_voltage := listMin log.cell_voltages
  let max_voltage := listMax log.cell_voltages
  (if max_voltage > MAX_CELL_VOLTAGE then
    [{ min_voltage := min_voltage
       max_voltage := max_voltage
       max_allowed_voltage := MAX_CELL_VOLTAGE
       min_allowed_voltage := MIN_CELL_VOLTAGE
       comment := "Cell voltage too high"
       timestamp := log.ts }]
   else []) ++
  (if min_voltage < MIN_CELL_VOLTAGE then
    [{ min_voltage := min_voltage
       max_voltage := max_voltage
       max_allowed_voltage := MAX_CELL_VOLTAGE
       min_allowed_voltage := MIN_CELL_VOLTAGE
       comment := "Cell voltage too low"
       timestamp := log.ts }]
   else [])

/-- The `voltage_difference_anomalies` list built inside
`get_voltage_anomalies` (lines 182-201): pick the threshold by c-rate,
then emit the imbalance record when the spread exceeds it. -/
def voltage_difference_list (design_capacity_kwh nominal_pack_voltage : ℚ) (log : Log) :
    List VDiffAnomaly :=
  let min_voltage := listMin log.cell_voltages
  let max_voltage := listMax log.cell_voltages
  let voltage_difference_mv := (max_voltage - min_voltage) * 1000
  let nominal_capacity := design_capacity_kwh * 1000 / nominal_pack_voltage
  let current_c_rate := |log.pack_current| / nominal_capacity
  let threshold :=
    if current_c_rate > C_RATE_LOAD_THRESHOLD then IMBALANCE_MV_UNDER_LOAD
    else IMBALANCE_MV_AT_REST
  let comment :=
    if current_c_rate > C_RATE_LOAD_THRESHOLD then
      "Cell voltage difference exceeds threshold under load"
    else "Cell voltage difference exceeds threshold at rest"
  if voltage_difference_mv > threshold then
    [{ voltage_difference := voltage_difference_mv
       comment := comment
       threshold := threshold
       timestamp := log.ts }]
  else []

/-- The dictionary returned by `get_voltage_anomalies` (lines 203-214):
each key is present only when its list is non-empty (`any(...)`), so an
absent key is `none`. -/
structure VoltageAnomalies where
  voltage_difference_anomalies : Option (List VDiffAnomaly)
  voltage_range_anomalies : Option (List VRangeAnomaly)
deriving DecidableEq, Repr

/-- `get_voltage_anomalies` (lines 152-214). -/
def get_voltage_anomalies (design_capacity_kwh nominal_pack_voltage : ℚ) (log : Log) :
    VoltageAnomalies :=
  let vd := voltage_difference_list design_capacity_kwh nominal_pack_voltage log
  let vr := voltage_range_list log
  { voltage_difference_anomalies := if vd.isEmpty then none else some vd
    voltage_range_anomalies := if vr.isEmpty then none else some vr }

/-- The `temperature_range_anomalies` list built inside
`get_temperature_anomalies` (lines 222-247). -/
def temperature_range_list (log : Log) : List TRangeAnomaly :=
  let max_cell_temperature := listMax log.cell_temps_c
  let min_cell_temperature := listMin log.cell_temps_c
  (if max_cell_temperature > MAX_CELL_TEMP_C then
    [{ min_cell_temperature := min_cell_temperature
       max_cell_temperature := max_cell_temperature
       min_allowed_cell_temperature := MIN_CELL_TEMP_C
       max_allowed_cell_temperature := MAX_CELL_TEMP_C
       comment := "Cell temperature too high"
       timestamp := log.ts }]
   else []) ++
  (if min_cell_temperature < MIN_CELL_TEMP_C then
    [{ min_cell_temperature := min_cell_temperature
       max_cell_temperature := max_cell_temperature
       min_allowed_cell_temperature := MIN_CELL_TEMP_C
       max_allowed_cell_temperature := MAX_CELL_TEMP_C
       comment := "Cell temperature too low"
       timestamp := log.ts }]
   else [])

/-- The `temperature_difference_anomalies` list built inside
`get_temperature_anomalies` (lines 249-255). -/
def temperature_difference_list (log : Log) : List TDiffAnomaly :=
  let max_cell_temperature := listMax log.cell_temps_c
  let min_cell_temperature := listMin log.cell_temps_c
  let cells_temperature_difference := max_cell_temperature - min_cell_temperature
  if cells_temperature_difference > MAX_CELLS_TEMP_DIFFERENCE then
    [{ cells_temperature_difference := cells_temperature_difference
       max_cells_temperature_difference := MAX_CELLS_TEMP_DIFFERENCE
       comment := "Cell temperature difference too high"
       timestamp := log.ts }]
  else []

/-- The dictionary returned by `get_temperature_anomalies` (lines 257-268). -/
structure TemperatureAnomalies where
  temperature_range_anomalies : Option (List TRangeAnomaly)
  temperature_difference_anomalies : Option (List TDiffAnomaly)
deriving DecidableEq, Repr

/-- `get_temperature_anomalies` (lines 216-268). -/
def get_temperature_anomalies (log : Log) : TemperatureAnomalies :=
  let tr := temperature_range_list log
  let td := temperature_difference_list log
  { temperature_range_anomalies := if tr.isEmpty then none else some tr
    temperature_difference_anomalies := if td.isEmpty then none else some td }

/-- `handle_anomalies_detection` (lines 270-286): extend the processor's
accumulated lists with whichever groups the per-sample helpers returned
(`dict.get(key) and list.extend(...)` extends only when the key is
present and the list is truthy, i.e. non-empty). -/
def handle_anomalies_detection (s : ProcState) (log : Log) : ProcState :=
  let va := get_voltage_anomalies s.design_capacity_kwh s.nominal_pack_voltage log
  let s :=
    match va.voltage_difference_anomalies with
    | some l =>
      if l.isEmpty then s
      else { s with voltage_difference_anomalies := s.voltage_difference_anomalies ++ l }
    | none => s
  let s :=
    match va.voltage_range_anomalies with
    | some l =>
      if l.isEmpty then s
      else { s with voltage_range_anomalies := s.voltage_range_anomalies ++ l }
    | none => s
  let ta := get_temperature_anomalies log
  let s :=
    match ta.temperature_difference_anomalies with
    | some l =>
      if l.isEmpty then s
      else { s with temperature_difference_anomalies := s.temperature_difference_anomalies ++ l }
    | none => s
  match ta.temperature_range_anomalies with
  | some l =>
    if l.isEmpty then s
    else { s with temperature_range_anomalies := s.temperature_range_anomalies ++ l }
  | none => s

/-- The nested dictionary returned by `get_detected_anomalies`
(lines 288-298): every one of the four sequences is always present. -/
structure DetectedAnomalies where
  voltage_range_anomalies : List VRangeAnomaly
  voltage_difference_anomalies : List VDiffAnomaly
  temperature_range_anomalies : List TRangeAnomaly
  temperature_difference_anomalies : List TDiffAnomaly
deriving DecidableEq, Repr

/-- `get_detected_anomalies` (lines 288-298). -/
def get_detected_anomalies (s : ProcState) : DetectedAnomalies where
  voltage_range_anomalies := s.voltage_range_anomalies
  voltage_difference_anomalies := s.voltage_difference_anomalies
  temperature_range_anomalies := s.temperature_range_anomalies
  temperature_difference_anomalies := s.temperature_difference_anomalies

-- --------- Orchestration ----------

/-- The `vehicle_info` echo in the final `battery_data` dict (lines 334-340). -/
structure VehicleInfo where
  vin : String
  make : String
  model : String
  year : Int
  design_capacity_kwh : ℚ
deriving DecidableEq, Repr

/-- The final `battery_data` dictionary (lines 333-344). -/
structure BatteryData where
  vehicle_info : VehicleInfo
  soh : Option ℚ
  cdc_data : CdcData
  anomalies : DetectedAnomalies
deriving DecidableEq, Repr

/-- The value of `processor.charge_end` assigned at line 322 when the
remaining logs after the current one are `rest`:
`(i+1 < len(logs) and logs[i+1]["event"] != CHARGE_EVENT) or i+1 == len(logs)`. -/
def chargeEndOf (rest : List Log) : Bool :=
  match rest with
  | [] => true
  | next :: _ => next.event ≠ EventKind.charge

/-- One iteration of the `for i, log in enumerate(logs)` loop
(lines 311-323), where `rest` is the part of the sequence after `log`. -/
def loopStep (s : ProcState) (log : Log) (rest : List Log) : Option ProcState :=
  let s := handle_overall_soc_changes s log.soc log.event
  let s := handle_anomalies_detection s log
  if log.event = EventKind.charge then
    handle_battery_charging_event { s with charge_end := chargeEndOf rest } log
  else some s

/-- The whole loop of `handle_battery_data_extraction` (lines 311-323). -/
def runLoop (s : ProcState) : List Log → Option ProcState
  | [] => some s
  | log :: rest =>
    match loopStep s log rest with
    | none => none
    | some s' => runLoop s' rest

/-- The possible outcomes of `handle_battery_data_extraction`:
the early `return {}` for missing/empty logs, the unhandled `IndexError`
on an empty buffer at closure, or the assembled `battery_data` record. -/
inductive ExtractResult where
  | emptyDict
  | indexError
  | ok (b : BatteryData)
deriving DecidableEq, Repr

/-- `handle_battery_data_extraction` (lines 300-345). -/
def handle_battery_data_extraction (log_data : LogData) : ExtractResult :=
  let vehicle_data := log_data.vehicle
  match log_data.logs with
  | none => .emptyDict
  | some [] => .emptyDict
  | some logs =>
    let processor :=
      initProcessor vehicle_data.design_capacity_kwh vehicle_data.nominal_pack_voltage
    match runLoop processor logs with
    | none => .indexError
    | some s =>
      .ok { vehicle_info :=
              { vin := vehicle_data.vin
                make := vehicle_data.make
                model := vehicle_data.model
                year := vehicle_data.year
                design_capacity_kwh := vehicle_data.design_capacity_kwh }
            soh := get_average_soh s
            cdc_data := get_average_charge_discharge_cycles_data s
            anomalies := get_detected_anomalies s }

-- --------- Shadow definitions used to state the claims ----------

/-- The buffer contents after the append block of
`handle_battery_charging_event`, as a function of the pre-call state. -/
def appendedBuffer (s : ProcState) (log : Log) : List (ℚ × ℚ) :=
  (appendPhase s log).current_charge

/-- `|end_soc - start_soc|` of a buffered run (0 for an empty buffer,
where the code would raise before using it). -/
def runDelta : List (ℚ × ℚ) → ℚ
  | [] => 0
  | first :: rest => |((first :: rest).getLast (by simp)).1 - first.1|

/-- Whether the loop iteration for `log` (with `rest` the remaining
samples) performs a charge-run closure that qualifies the data-quality
filter and hence appends a cycle result: a Charge event whose lookahead
flag is raised and whose buffered run (after the append block) has
`delta_soc > MIN_DELTA_SOC`. -/
def stepAppends (s : ProcState) (log : Log) (rest : List Log) : Bool :=
  decide (log.event = EventKind.charge) && chargeEndOf rest &&
    decide (runDelta (appendedBuffer s log) > MIN_DELTA_SOC)

/-- Whether some iteration of the loop, started from state `s`, performs
a qualifying charge-run closure ("some charge run had ΔSoC > 5.0"),
threading the state exactly as `runLoop` does. -/
def qualifyingClosure (s : ProcState) : List Log → Bool
  | [] => false
  | log :: rest =>
    stepAppends s log rest ||
      (match loopStep s log rest with
       | none => false
       | some s' => qualifyingClosure s' rest)

/-- The safety invariant behind the empty-buffer closure: whenever the
full-charge flag is set, the run buffer is non-empty. -/
def BufInv (s : ProcState) : Prop :=
  s.reached_full_charge = true → s.current_charge ≠ []

-- --------- Concrete example inputs ----------

/-- A concrete valid vehicle profile. -/
def exProfile : VehicleProfile where
  vin := "WVWZZZ"
  make := "VW"
  model := "ID3"
  year := 2021
  design_capacity_kwh := 50
  nominal_pack_voltage := 400

/-- A benign Rest sample: no anomaly fires. -/
def exRestLog : Log where
  ts := "t0"
  event := .rest
  soc := 50
  energy_in_kwh := 0
  pack_current := 0
  cell_voltages := [37/10, 37/10]
  cell_temps_c := [25, 25]

/-- First sample of the Scenario-B charge run: soc 20, 10 kWh added. -/
def exChargeLog1 : Log :=
  { exRestLog with ts := "t1", event := .charge, soc := 20, energy_in_kwh := 10 }

/-- Second sample of the Scenario-B charge run: soc 80, 20 kWh added. -/
def exChargeLog2 : Log :=
  { exRestLog with ts := "t2", event := .charge, soc := 80, energy_in_kwh := 20 }

/-- An anomalous sample: high cell voltage and large imbalance. -/
def exAnomalousLog : Log :=
  { exRestLog with ts := "t3", cell_voltages := [425/100, 410/100] }

/-- The voltage-range record fired by `exAnomalousLog`. -/
def exHighRec : VRangeAnomaly where
  min_voltage := 410/100
  max_voltage := 425/100
  max_allowed_voltage := MAX_CELL_VOLTAGE
  min_allowed_voltage := MIN_CELL_VOLTAGE
  comment := "Cell voltage too high"
  timestamp := "t3"

/-- The voltage-imbalance record fired by `exAnomalousLog` at rest. -/
def exDiffRec : VDiffAnomaly where
  voltage_difference := 150
  comment := "Cell voltage difference exceeds threshold at rest"
  threshold := IMBALANCE_MV_AT_REST
  timestamp := "t3"

end EvStats

-- --------- Helper lemmas (shared across claims) ----------

namespace EvStats

/-- Normal form of `handle_overall_soc_changes` as a record update. -/
theorem handle_overall_soc_changes_eq (s : ProcState) (c : ℚ) (e : EventKind) :
    handle_overall_soc_changes s c e =
      { s with
        last_soc := some c
        cumulative_soc_delta :=
          match s.last_soc with
          | none => s.cumulative_soc_delta
          | some last => s.cumulative_soc_delta + |c - last|
        cumulative_charge_soc_delta :=
          match s.last_soc with
          | none => s.cumulative_charge_soc_delta
          | some last =>
            if e = EventKind.charge then s.cumulative_charge_soc_delta + |c - last|
            else s.cumulative_charge_soc_delta } := by
  unfold handle_overall_soc_changes
  cases s.last_soc with
  | none => rfl
  | some last =>
    by_cases h : e = EventKind.charge <;> simp [h]

/-- Normal form of `handle_anomalies_detection` as a record update:
each accumulated sequence is extended by exactly the per-sample list. -/
theorem handle_anomalies_detection_eq (s : ProcState) (log : Log) :
    handle_anomalies_detection s log =
      { s with
        voltage_difference_anomalies :=
          s.voltage_difference_anomalies ++
            voltage_difference_list s.design_capacity_kwh s.nominal_pack_voltage log
        voltage_range_anomalies :=
          s.voltage_range_anomalies ++ voltage_range_list log
        temperature_difference_anomalies :=
          s.temperature_difference_anomalies ++ temperature_difference_list log
        temperature_range_anomalies :=
          s.temperature_range_anomalies ++ temperature_range_list log } := by
  unfold handle_anomalies_detection get_voltage_anomalies get_temperature_anomalies
  by_cases hvd : (voltage_difference_list s.design_capacity_kwh s.nominal_pack_voltage log).isEmpty <;>
    by_cases hvr : (voltage_range_list log).isEmpty <;>
    by_cases htd : (temperature_difference_list log).isEmpty <;>
    by_cases htr : (temperature_range_list log).isEmpty <;>
    simp_all [List.isEmpty_iff]

/-- `loopStep` on a non-Charge sample: only the counters and the anomaly
accumulators change. -/
theorem loopStep_nonCharge (s : ProcState) (log : Log) (rest : List Log)
    (h : log.event ≠ EventKind.charge) :
    loopStep s log rest =
      some (handle_anomalies_detection (handle_overall_soc_changes s log.soc log.event) log) := by
  simp [loopStep, h]

/-- `loopStep` on a Charge sample: the lookahead flag is installed and
the charging handler runs. -/
theorem loopStep_charge (s : ProcState) (log : Log) (rest : List Log)
    (h : log.event = EventKind.charge) :
    loopStep s log rest =
      handle_battery_charging_event
        { handle_anomalies_detection (handle_overall_soc_changes s log.soc log.event) log with
          charge_end := chargeEndOf rest } log := by
  simp [loopStep, h]

/-- Closure with a raised flag and a non-empty buffer: the run result is
appended exactly when `delta_soc > MIN_DELTA_SOC`, and the buffer and
flags are reset in both cases. -/
theorem closurePhase_closes (s : ProcState) (first : ℚ × ℚ) (rest : List (ℚ × ℚ))
    (hend : s.charge_end = true) (hbuf : s.current_charge = first :: rest) :
    closurePhase s =
      some { s with
             charge_results :=
               if runDelta (first :: rest) > MIN_DELTA_SOC then
                 s.charge_results ++
                   [get_single_charge_result (((first :: rest).map Prod.snd).sum)
                     (runDelta (first :: rest)) s.design_capacity_kwh]
               else s.charge_results
             charge_end := false
             reached_full_charge := false
             current_charge := [] } := by
  unfold closurePhase
  rw [hend]
  simp only [if_true]
  split
  · simp_all
  · rename_i first' rest' heq
    rw [hbuf] at heq
    cases heq
    simp [runDelta]

/-- Closure with a lowered flag: the state passes through unchanged. -/
theorem closurePhase_skip (s : ProcState) (hend : s.charge_end = false) :
    closurePhase s = some s := by
  unfold closurePhase
  rw [hend]
  simp

/-- After the append block, the buffer is non-empty whenever the
invariant held before the call. -/
theorem appendPhase_ne_nil (s : ProcState) (log : Log) (hinv : BufInv s) :
    (appendPhase s log).current_charge ≠ [] := by
  unfold appendPhase
  cases h : s.reached_full_charge
  · simp [h]
  · simpa [h] using hinv h

/-- Under the invariant, the charging handler never hits the empty-buffer
access, and it re-establishes the invariant. -/
theorem handle_battery_charging_event_total (s : ProcState) (log : Log) (hinv : BufInv s) :
    ∃ s', handle_battery_charging_event s log = some s' ∧ BufInv s' := by
  unfold handle_battery_charging_event
  have hne : (flagPhase (appendPhase s log) log).current_charge ≠ [] :=
    appendPhase_ne_nil s log hinv
  cases hend : (flagPhase (appendPhase s log) log).charge_end with
  | false =>
    refine ⟨_, closurePhase_skip _ hend, fun _ => hne⟩
  | true =>
    cases hbm : (flagPhase (appendPhase s log) log).current_charge with
    | nil => exact absurd hbm hne
    | cons first rest =>
      refine ⟨_, closurePhase_closes _ first rest hend hbm, ?_⟩
      intro hf
      simp at hf

/-- Under the invariant, one loop iteration always succeeds and
preserves the invariant. -/
theorem loopStep_total (s : ProcState) (log : Log) (rest : List Log) (hinv : BufInv s) :
    ∃ s', loopStep s log rest = some s' ∧ BufInv s' := by
  by_cases h : log.event = EventKind.charge
  · rw [loopStep_charge s log rest h]
    refine handle_battery_charging_event_total _ log ?_
    simpa [BufInv, handle_anomalies_detection_eq, handle_overall_soc_changes_eq] using hinv
  · rw [loopStep_nonCharge s log rest h]
    refine ⟨_, rfl, ?_⟩
    simpa [BufInv, handle_anomalies_detection_eq, handle_overall_soc_changes_eq] using hinv

/-- Under the invariant, the whole loop always succeeds. -/
theorem runLoop_total (logs : List Log) :
    ∀ s : ProcState, BufInv s → ∃ s', runLoop s logs = some s' := by
  induction logs with
  | nil => exact fun s _ => ⟨s, rfl⟩
  | cons log rest ih =>
    intro s hinv
    obtain ⟨s1, hstep, hinv1⟩ := loopStep_total s log rest hinv
    obtain ⟨s', hrun⟩ := ih s1 hinv1
    exact ⟨s', by simp [runLoop, hstep, hrun]⟩

/-- The composition of the append and flag blocks as one record update. -/
theorem phases_eq (s : ProcState) (log : Log) :
    flagPhase (appendPhase s log) log =
      { s with
        current_charge := appendedBuffer s log
        reached_full_charge := decide (⌊log.soc⌋ = 100) } := by
  by_cases h : s.reached_full_charge <;>
    simp [flagPhase, appendPhase, appendedBuffer, h]

/-- The appended buffer, spelled out. -/
theorem appendedBuffer_eq (s : ProcState) (log : Log) :
    appendedBuffer s log =
      if s.reached_full_charge then s.current_charge
      else s.current_charge ++ [(log.soc, log.energy_in_kwh)] := by
  unfold appendedBuffer appendPhase
  split <;> simp

/-- Closure with a raised flag and an empty buffer is the Python
`IndexError`. -/
theorem closurePhase_empty (s : ProcState) (hend : s.charge_end = true)
    (hbuf : s.current_charge = []) : closurePhase s = none := by
  unfold closurePhase
  rw [hend]
  simp only [if_true]
  split
  · rfl
  · simp_all

/-- The charging handler never touches the anomaly accumulators, the
cycle counters, or the vehicle constants. -/
theorem handle_battery_charging_event_frame (s s' : ProcState) (log : Log)
    (h : handle_battery_charging_event s log = some s') :
    s'.voltage_difference_anomalies = s.voltage_difference_anomalies ∧
    s'.voltage_range_anomalies = s.voltage_range_anomalies ∧
    s'.temperature_difference_anomalies = s.temperature_difference_anomalies ∧
    s'.temperature_range_anomalies = s.temperature_range_anomalies ∧
    s'.design_capacity_kwh = s.design_capacity_kwh ∧
    s'.nominal_pack_voltage = s.nominal_pack_voltage ∧
    s'.last_soc = s.last_soc ∧
    s'.cumulative_soc_delta = s.cumulative_soc_delta ∧
    s'.cumulative_charge_soc_delta = s.cumulative_charge_soc_delta := by
  unfold handle_battery_charging_event at h
  rw [phases_eq] at h
  unfold closurePhase at h
  split at h
  · split at h
    · exact absurd h (by simp)
    · simp only [Option.some.injEq] at h
      subst h
      simp
  · simp only [Option.some.injEq] at h
    subst h
    simp

/-- One loop iteration appends exactly the per-sample anomaly lists and
leaves the vehicle constants untouched. -/
theorem loopStep_anomalies (s : ProcState) (log : Log) (rest : List Log) (s' : ProcState)
    (h : loopStep s log rest = some s') :
    s'.voltage_range_anomalies = s.voltage_range_anomalies ++ voltage_range_list log ∧
    s'.voltage_difference_anomalies =
      s.voltage_difference_anomalies ++
        voltage_difference_list s.design_capacity_kwh s.nominal_pack_voltage log ∧
    s'.temperature_range_anomalies =
      s.temperature_range_anomalies ++ temperature_range_list log ∧
    s'.temperature_difference_anomalies =
      s.temperature_difference_anomalies ++ temperature_difference_list log ∧
    s'.design_capacity_kwh = s.design_capacity_kwh ∧
    s'.nominal_pack_voltage = s.nominal_pack_voltage := by
  by_cases hev : log.event = EventKind.charge
  · rw [loopStep_charge s log rest hev] at h
    have hfr := handle_battery_charging_event_frame _ _ _ h
    simp only [handle_anomalies_detection_eq, handle_overall_soc_changes_eq] at hfr
    obtain ⟨h1, h2, h3, h4, h5, h6, -, -, -⟩ := hfr
    exact ⟨h2, h1, h4, h3, h5, h6⟩
  · rw [loopStep_nonCharge s log rest hev] at h
    simp only [Option.some.injEq] at h
    subst h
    simp [handle_anomalies_detection_eq, handle_overall_soc_changes_eq]

/-- Over the whole loop, each anomaly sequence is the accumulator's
initial value followed by the per-sample lists in sample order. -/
theorem runLoop_anomalies (logs : List Log) :
    ∀ s s' : ProcState, runLoop s logs = some s' →
      s'.voltage_range_anomalies =
        s.voltage_range_anomalies ++ logs.flatMap voltage_range_list ∧
      s'.voltage_difference_anomalies =
        s.voltage_difference_anomalies ++
          logs.flatMap (voltage_difference_list s.design_capacity_kwh s.nominal_pack_voltage) ∧
      s'.temperature_range_anomalies =
        s.temperature_range_anomalies ++ logs.flatMap temperature_range_list ∧
      s'.temperature_difference_anomalies =
        s.temperature_difference_anomalies ++ logs.flatMap temperature_difference_list ∧
      s'.design_capacity_kwh = s.design_capacity_kwh ∧
      s'.nominal_pack_voltage = s.nominal_pack_voltage := by
  induction logs with
  | nil =>
    intro s s' h
    simp only [runLoop, Option.some.injEq] at h
    subst h
    simp
  | cons log rest ih =>
    intro s s' h
    simp only [runLoop] at h
    cases hstep : loopStep s log rest with
    | none => rw [hstep] at h; exact absurd h (by simp)
    | some s1 =>
      rw [hstep] at h
      obtain ⟨hvr, hvd, htr, htd, hdc, hnv⟩ := loopStep_anomalies s log rest s1 hstep
      obtain ⟨ivr, ivd, itr, itd, idc, inv⟩ := ih s1 s' h
      refine ⟨?_, ?_, ?_, ?_, ?_, ?_⟩
      · rw [ivr, hvr]; simp
      · rw [ivd, hvd, hdc, hnv]; simp
      · rw [itr, htr]; simp
      · rw [itd, htd]; simp
      · rw [idc, hdc]
      · rw [inv, hnv]

/-- One loop iteration appends one cycle result exactly when
`stepAppends` holds, and then it is the result of `get_single_charge_result`
on the buffered run. -/
theorem loopStep_results (s : ProcState) (log : Log) (rest : List Log) (s' : ProcState)
    (h : loopStep s log rest = some s') :
    s'.charge_results =
      if stepAppends s log rest then
        s.charge_results ++
          [get_single_charge_result (((appendedBuffer s log).map Prod.snd).sum)
            (runDelta (appendedBuffer s log)) s.design_capacity_kwh]
      else s.charge_results := by
  by_cases hev : log.event = EventKind.charge
  · rw [loopStep_charge s log rest hev] at h
    unfold handle_battery_charging_event at h
    rw [phases_eq] at h
    have habuf : appendedBuffer
        { handle_anomalies_detection (handle_overall_soc_changes s log.soc log.event) log with
          charge_end := chargeEndOf rest } log = appendedBuffer s log := by
      rw [appendedBuffer_eq, appendedBuffer_eq]
      simp [handle_anomalies_detection_eq, handle_overall_soc_changes_eq]
    rw [habuf] at h
    cases hce : chargeEndOf rest with
    | false =>
      rw [closurePhase_skip _
        (by simp [handle_anomalies_detection_eq, handle_overall_soc_changes_eq, hce])] at h
      simp only [Option.some.injEq] at h
      subst h
      simp [stepAppends, hce, handle_anomalies_detection_eq, handle_overall_soc_changes_eq]
    | true =>
      cases hbuf : appendedBuffer s log with
      | nil =>
        rw [hbuf] at h
        rw [closurePhase_empty _
          (by simp [handle_anomalies_detection_eq, handle_overall_soc_changes_eq, hce])
          (by simp)] at h
        exact absurd h (by simp)
      | cons f r =>
        rw [hbuf] at h
        rw [closurePhase_closes _ f r
          (by simp [handle_anomalies_detection_eq, handle_overall_soc_changes_eq, hce])
          (by simp)] at h
        simp only [Option.some.injEq] at h
        subst h
        by_cases hd : runDelta (f :: r) > MIN_DELTA_SOC <;>
          simp [hd, stepAppends, hev, hce, hbuf,
            handle_anomalies_detection_eq, handle_overall_soc_changes_eq]
  · rw [loopStep_nonCharge s log rest hev] at h
    simp only [Option.some.injEq] at h
    subst h
    simp [stepAppends, hev, handle_anomalies_detection_eq, handle_overall_soc_changes_eq]

/-- Over the whole loop, the cycle-result list ends empty exactly when it
started empty and no iteration performed a qualifying closure. -/
theorem runLoop_results_empty (logs : List Log) :
    ∀ s s' : ProcState, runLoop s logs = some s' →
      (s'.charge_results = [] ↔
        (s.charge_results = [] ∧ qualifyingClosure s logs = false)) := by
  induction logs with
  | nil =>
    intro s s' h
    simp only [runLoop, Option.some.injEq] at h
    subst h
    simp [qualifyingClosure]
  | cons log rest ih =>
    intro s s' h
    simp only [runLoop] at h
    cases hstep : loopStep s log rest with
    | none => rw [hstep] at h; exact absurd h (by simp)
    | some s1 =>
      rw [hstep] at h
      have hres := loopStep_results s log rest s1 hstep
      have hiff := ih s1 s' h
      cases hsa : stepAppends s log rest with
      | false =>
        rw [hsa] at hres
        simp only [if_neg Bool.false_ne_true, Bool.false_eq_true, if_false] at hres
        rw [hiff, hres]
        simp [qualifyingClosure, hstep, hsa]
      | true =>
        rw [hsa] at hres
        simp only [if_pos, if_true] at hres
        rw [hiff, hres]
        simp [qualifyingClosure, hstep, hsa]

-- --------- Concrete evaluation helpers ----------

/-- On a sample with balanced in-range cell voltages `[3.7, 3.7]`, benign
temperatures `[25, 25]` and zero pack current, no per-sample anomaly list
fires. -/
theorem benign_sample_lists (log : Log)
    (hv : log.cell_voltages = [37/10, 37/10])
    (ht : log.cell_temps_c = [25, 25])
    (hc : log.pack_current = 0) :
    voltage_range_list log = [] ∧
    (∀ dc nv : ℚ, voltage_difference_list dc nv log = []) ∧
    temperature_range_list log = [] ∧
    temperature_difference_list log = [] := by
  refine ⟨?_, ?_, ?_, ?_⟩
  · norm_num [voltage_range_list, listMin, listMax, hv, MAX_CELL_VOLTAGE, MIN_CELL_VOLTAGE]
  · intro dc nv
    unfold voltage_difference_list
    norm_num [listMin, listMax, hv, hc]
    split <;> norm_num [IMBALANCE_MV_AT_REST, IMBALANCE_MV_UNDER_LOAD]
  · norm_num [temperature_range_list, listMin, listMax, ht, MAX_CELL_TEMP_C, MIN_CELL_TEMP_C]
  · norm_num [temperature_difference_list, listMin, listMax, ht, MAX_CELLS_TEMP_DIFFERENCE]

/-- When no per-sample list fires, the anomaly handler is the identity. -/
theorem handle_anomalies_detection_benign (s : ProcState) (log : Log)
    (h1 : voltage_range_list log = [])
    (h2 : voltage_difference_list s.design_capacity_kwh s.nominal_pack_voltage log = [])
    (h3 : temperature_range_list log = [])
    (h4 : temperature_difference_list log = []) :
    handle_anomalies_detection s log = s := by
  rw [handle_anomalies_detection_eq, h1, h2, h3, h4]
  simp

/-- Scenario B, first loop iteration: the charge sample at soc 20 seeds
the SoC tracker and is buffered; the lookahead sees another Charge sample
so no closure happens. -/
theorem scenarioB_step1 :
    loopStep (initProcessor 50 400) exChargeLog1 [exChargeLog2] =
      some { initProcessor 50 400 with
             last_soc := some 20
             current_charge := [(20, 10)] } := by
  obtain ⟨h1, h2, h3, h4⟩ := benign_sample_lists exChargeLog1 rfl rfl rfl
  rw [loopStep_charge _ _ _ rfl]
  rw [handle_overall_soc_changes_eq]
  rw [handle_anomalies_detection_benign _ _ h1 (h2 _ _) h3 h4]
  unfold handle_battery_charging_event
  rw [phases_eq, appendedBuffer_eq]
  rw [closurePhase_skip _ (by decide)]
  case _ => decide

/-- Scenario B, second loop iteration: the charge sample at soc 80 is
buffered, the run closes (last sample), ΔSoC = 60 > 5 qualifies, and the
cycle SoH 30·100/60 / 50 · 100 = 100 is recorded. -/
theorem scenarioB_step2 :
    loopStep { initProcessor 50 400 with
               last_soc := some 20
               current_charge := [(20, 10)] } exChargeLog2 [] =
      some { initProcessor 50 400 with
             last_soc := some 80
             cumulative_soc_delta := 60
             cumulative_charge_soc_delta := 60
             charge_results := [100] } := by
  obtain ⟨h1, h2, h3, h4⟩ := benign_sample_lists exChargeLog2 rfl rfl rfl
  rw [loopStep_charge _ _ _ rfl]
  rw [handle_overall_soc_changes_eq]
  rw [handle_anomalies_detection_benign _ _ h1 (h2 _ _) h3 h4]
  unfold handle_battery_charging_event
  rw [phases_eq, appendedBuffer_eq]
  norm_num [initProcessor, exChargeLog2, exRestLog]
  rw [closurePhase_closes _ ((20 : ℚ), (10 : ℚ))
    [((80 : ℚ), (20 : ℚ))] rfl rfl]
  norm_num [runDelta, get_single_charge_result, MIN_DELTA_SOC]

/-- Scenario B, whole loop. -/
theorem scenarioB_run :
    runLoop (initProcessor 50 400) [exChargeLog1, exChargeLog2] =
      some { initProcessor 50 400 with
             last_soc := some 80
             cumulative_soc_delta := 60
             cumulative_charge_soc_delta := 60
             charge_results := [100] } := by
  simp only [runLoop, scenarioB_step1, scenarioB_step2]

/-- Scenario B, end to end: SoH 100.00, 0.6 equivalent cycles. -/
theorem scenarioB_eval :
    handle_battery_data_extraction
        { vehicle := exProfile, logs := some [exChargeLog1, exChargeLog2] } =
      ExtractResult.ok
        { vehicle_info :=
            { vin := "WVWZZZ", make := "VW", model := "ID3", year := 2021,
              design_capacity_kwh := 50 }
          soh := some 100
          cdc_data := { overall_cycles := 3/5, charge_cycles := 3/5, discharge_cycles := 0 }
          anomalies :=
            { voltage_range_anomalies := [], voltage_difference_anomalies := [],
              temperature_range_anomalies := [], temperature_difference_anomalies := [] } } := by
  unfold handle_battery_data_extraction
  dsimp only [exProfile]
  rw [scenarioB_run]
  norm_num [get_average_soh, get_average_charge_discharge_cycles_data, get_detected_anomalies,
    round2, roundHalfEven, Int.fract, round_eq, initProcessor]

/-- The per-sample lists fired by the anomalous sample at 50 kWh / 400 V. -/
theorem anomalous_sample_lists :
    voltage_range_list exAnomalousLog = [exHighRec] ∧
    voltage_difference_list 50 400 exAnomalousLog = [exDiffRec] ∧
    temperature_range_list exAnomalousLog = [] ∧
    temperature_difference_list exAnomalousLog = [] := by
  refine ⟨?_, ?_, ?_, ?_⟩
  · norm_num [voltage_range_list, listMin, listMax, exAnomalousLog, exRestLog, exHighRec,
      MAX_CELL_VOLTAGE, MIN_CELL_VOLTAGE, max_def, min_def]
  · norm_num [voltage_difference_list, listMin, listMax, exAnomalousLog, exRestLog, exDiffRec,
      IMBALANCE_MV_AT_REST, IMBALANCE_MV_UNDER_LOAD, C_RATE_LOAD_THRESHOLD, max_def, min_def]
  · norm_num [temperature_range_list, listMin, listMax, exAnomalousLog, exRestLog,
      MAX_CELL_TEMP_C, MIN_CELL_TEMP_C]
  · norm_num [temperature_difference_list, listMin, listMax, exAnomalousLog, exRestLog,
      MAX_CELLS_TEMP_DIFFERENCE]

/-- A benign Rest sample only seeds or advances the SoC tracker. -/
theorem stepRest (rest : List Log) :
    loopStep (initProcessor 50 400) exRestLog rest =
      some { initProcessor 50 400 with last_soc := some 50 } := by
  obtain ⟨h1, h2, h3, h4⟩ := benign_sample_lists exRestLog rfl rfl rfl
  rw [loopStep_nonCharge _ _ _ (by decide)]
  rw [handle_overall_soc_changes_eq]
  rw [handle_anomalies_detection_benign _ _ h1 (h2 _ _) h3 h4]
  rfl

/-- The anomalous sample after the seeded state: zero SoC delta, and the
two voltage anomaly records are accumulated. -/
theorem stepAnomAfterRest (rest : List Log) :
    loopStep { initProcessor 50 400 with last_soc := some 50 } exAnomalousLog rest =
      some { initProcessor 50 400 with
             last_soc := some 50
             voltage_range_anomalies := [exHighRec]
             voltage_difference_anomalies := [exDiffRec] } := by
  obtain ⟨h1, h2, h3, h4⟩ := anomalous_sample_lists
  rw [loopStep_nonCharge _ _ _ (by decide)]
  rw [handle_overall_soc_changes_eq]
  rw [handle_anomalies_detection_eq]
  dsimp only [initProcessor]
  rw [h1, h2, h3, h4]
  norm_num [exAnomalousLog, exRestLog]

/-- The anomalous sample first: it seeds the tracker and accumulates the
two voltage anomaly records. -/
theorem stepAnomFirst (rest : List Log) :
    loopStep (initProcessor 50 400) exAnomalousLog rest =
      some { initProcessor 50 400 with
             last_soc := some 50
             voltage_range_anomalies := [exHighRec]
             voltage_difference_anomalies := [exDiffRec] } := by
  obtain ⟨h1, h2, h3, h4⟩ := anomalous_sample_lists
  rw [loopStep_nonCharge _ _ _ (by decide)]
  rw [handle_overall_soc_changes_eq]
  rw [handle_anomalies_detection_eq]
  dsimp only [initProcessor]
  rw [h1, h2, h3, h4]
  norm_num [exAnomalousLog, exRestLog]

/-- A benign Rest sample after the anomalous state. -/
theorem stepRestAfterAnom (rest : List Log) :
    loopStep { initProcessor 50 400 with
               last_soc := some 50
               voltage_range_anomalies := [exHighRec]
               voltage_difference_anomalies := [exDiffRec] } exRestLog rest =
      some { initProcessor 50 400 with
             last_soc := some 50
             voltage_range_anomalies := [exHighRec]
             voltage_difference_anomalies := [exDiffRec] } := by
  obtain ⟨h1, h2, h3, h4⟩ := benign_sample_lists exRestLog rfl rfl rfl
  rw [loopStep_nonCharge _ _ _ (by decide)]
  rw [handle_overall_soc_changes_eq]
  rw [handle_anomalies_detection_benign _ _ h1 (h2 _ _) h3 h4]
  norm_num [initProcessor, exRestLog]

/-- End-to-end result on `[exRestLog, exAnomalousLog]`. -/
theorem evalRestAnom :
    handle_battery_data_extraction
        { vehicle := exProfile, logs := some [exRestLog, exAnomalousLog] } =
      ExtractResult.ok
        { vehicle_info :=
            { vin := "WVWZZZ", make := "VW", model := "ID3", year := 2021,
              design_capacity_kwh := 50 }
          soh := none
          cdc_data := { overall_cycles := 0, charge_cycles := 0, discharge_cycles := 0 }
          anomalies :=
            { voltage_range_anomalies := [exHighRec]
              voltage_difference_anomalies := [exDiffRec]
              temperature_range_anomalies := []
              temperature_difference_anomalies := [] } } := by
  unfold handle_battery_data_extraction
  dsimp only [exProfile]
  rw [show runLoop (initProcessor 50 400) [exRestLog, exAnomalousLog] =
      some { initProcessor 50 400 with
             last_soc := some 50
             voltage_range_anomalies := [exHighRec]
             voltage_difference_anomalies := [exDiffRec] } by
    simp only [runLoop, stepRest, stepAnomAfterRest]]
  norm_num [get_average_soh, get_average_charge_discharge_cycles_data, get_detected_anomalies,
    round2, roundHalfEven, Int.fract, round_eq, initProcessor]

/-- End-to-end result on the transposed sequence `[exAnomalousLog, exRestLog]`. -/
theorem evalAnomRest :
    handle_battery_data_extraction
        { vehicle := exProfile, logs := some [exAnomalousLog, exRestLog] } =
      ExtractResult.ok
        { vehicle_info :=
            { vin := "WVWZZZ", make := "VW", model := "ID3", year := 2021,
              design_capacity_kwh := 50 }
          soh := none
          cdc_data := { overall_cycles := 0, charge_cycles := 0, discharge_cycles := 0 }
          anomalies :=
            { voltage_range_anomalies := [exHighRec]
              voltage_difference_anomalies := [exDiffRec]
              temperature_range_anomalies := []
              temperature_difference_anomalies := [] } } := by
  unfold handle_battery_data_extraction
  dsimp only [exProfile]
  rw [show runLoop (initProcessor 50 400) [exAnomalousLog, exRestLog] =
      some { initProcessor 50 400 with
             last_soc := some 50
             voltage_range_anomalies := [exHighRec]
             voltage_difference_anomalies := [exDiffRec] } by
    simp only [runLoop, stepAnomFirst, stepRestAfterAnom]]
  norm_num [get_average_soh, get_average_charge_discharge_cycles_data, get_detected_anomalies,
    round2, roundHalfEven, Int.fract, round_eq, initProcessor]

/-- End-to-end result on the single benign sample. -/
theorem evalRestOnly :
    handle_battery_data_extraction { vehicle := exProfile, logs := some [exRestLog] } =
      ExtractResult.ok
        { vehicle_info :=
            { vin := "WVWZZZ", make := "VW", model := "ID3", year := 2021,
              design_capacity_kwh := 50 }
          soh := none
          cdc_data := { overall_cycles := 0, charge_cycles := 0, discharge_cycles := 0 }
          anomalies :=
            { voltage_range_anomalies := []
              voltage_difference_anomalies := []
              temperature_range_anomalies := []
              temperature_difference_anomalies := [] } } := by
  unfold handle_battery_data_extraction
  dsimp only [exProfile]
  rw [show runLoop (initProcessor 50 400) [exRestLog] =
      some { initProcessor 50 400 with last_soc := some 50 } by
    simp only [runLoop, stepRest]]
  norm_num [get_average_soh, get_average_charge_discharge_cycles_data, get_detected_anomalies,
    round2, roundHalfEven, Int.fract, round_eq, initProcessor]

/-- The anomaly sequences of an assembled result are exactly the
concatenated per-sample lists, in sample order. -/
theorem extraction_anomalies (ld : LogData) (logs : List Log) (b : BatteryData)
    (hl : ld.logs = some logs)
    (hok : handle_battery_data_extraction ld = ExtractResult.ok b) :
    b.anomalies.voltage_range_anomalies = logs.flatMap voltage_range_list ∧
    b.anomalies.voltage_difference_anomalies =
      logs.flatMap
        (voltage_difference_list ld.vehicle.design_capacity_kwh
          ld.vehicle.nominal_pack_voltage) ∧
    b.anomalies.temperature_range_anomalies = logs.flatMap temperature_range_list ∧
    b.anomalies.temperature_difference_anomalies =
      logs.flatMap temperature_difference_list := by
  unfold handle_battery_data_extraction at hok
  rw [hl] at hok
  cases logs with
  | nil => exact absurd hok (by simp)
  | cons l r =>
    dsimp only at hok
    cases hrun : runLoop
        (initProcessor ld.vehicle.design_capacity_kwh ld.vehicle.nominal_pack_voltage)
        (l :: r) with
    | none => rw [hrun] at hok; exact absurd hok (by simp)
    | some s =>
      rw [hrun] at hok
      simp only [ExtractResult.ok.injEq] at hok
      subst hok
      obtain ⟨h1, h2, h3, h4, h5, h6⟩ := runLoop_anomalies (l :: r) _ s hrun
      simp [get_detected_anomalies, h1, h2, h3, h4, initProcessor]

-- --------- Claim theorems ----------

/-- C1 counterexample: on a valid profile with an empty sample sequence,
`handle_battery_data_extraction` returns the bare empty dictionary (the
early `return {}` at line 307), not a populated result record — refuting
the claim that the vehicle info is echoed and the counts are zero. -/
theorem claim_C1_counterexample :
    handle_battery_data_extraction { vehicle := exProfile, logs := some [] } =
      ExtractResult.emptyDict := rfl

/-- C1 (amended): for an input with a valid VehicleProfile and an empty
(or absent) sample sequence, `handle_battery_data_extraction` returns the
empty record `{}` — it does not build an AnalysisResult, does not echo the
vehicle info, and reports no SoH, counts or anomaly sequences. -/
theorem claim_C1_empty_input (ld : LogData)
    (h : ld.logs = none ∨ ld.logs = some []) :
    handle_battery_data_extraction ld = ExtractResult.emptyDict := by
  rcases h with h | h <;> simp [handle_battery_data_extraction, h]

/-- C1 witness: the amended claim evaluated on an input with the `logs`
key absent. -/
theorem claim_C1_empty_input_witness :
    handle_battery_data_extraction { vehicle := exProfile, logs := none } =
      ExtractResult.emptyDict :=
  claim_C1_empty_input { vehicle := exProfile, logs := none } (Or.inl rfl)

/-- C2: the charging handler is the append block, then the flag update,
then the closure block; the `(soc, energy_in_kwh)` pair is appended iff
`reached_full_charge` is false at entry; the flag is recomputed to
`floor(soc) == 100` only after the append decision (so the sample that
first reaches 100% is still recorded), and while the flag is set the
buffer receives nothing. -/
theorem claim_C2_append_rule (s : ProcState) (log : Log) :
    handle_battery_charging_event s log =
      closurePhase (flagPhase (appendPhase s log) log) ∧
    (appendPhase s log).current_charge =
      (if s.reached_full_charge then s.current_charge
       else s.current_charge ++ [(log.soc, log.energy_in_kwh)]) ∧
    (flagPhase (appendPhase s log) log).current_charge =
      (appendPhase s log).current_charge ∧
    (flagPhase (appendPhase s log) log).reached_full_charge =
      decide (⌊log.soc⌋ = 100) ∧
    (s.reached_full_charge = false →
      (log.soc, log.energy_in_kwh) ∈ (flagPhase (appendPhase s log) log).current_charge) ∧
    (s.reached_full_charge = true →
      (flagPhase (appendPhase s log) log).current_charge = s.current_charge) := by
  refine ⟨rfl, ?_, rfl, rfl, ?_, ?_⟩
  · by_cases h : s.reached_full_charge <;> simp [appendPhase, h]
  · intro h
    simp [flagPhase, appendPhase, h]
  · intro h
    simp [flagPhase, appendPhase, h]

/-- C2 witness: from a fresh processor (flag down), the charge sample is
recorded in the buffer. -/
theorem claim_C2_append_rule_witness :
    (exChargeLog1.soc, exChargeLog1.energy_in_kwh) ∈
      (flagPhase (appendPhase (initProcessor 50 400) exChargeLog1) exChargeLog1).current_charge :=
  (claim_C2_append_rule (initProcessor 50 400) exChargeLog1).2.2.2.2.1 rfl

/-- C3: at every charge-run closure with a non-empty buffer, letting
`delta_soc = |end_soc - start_soc|` over the buffered run: if
`delta_soc > 5.0` the cycle SoH `total_energy*100/delta_soc / design * 100`
is appended to the result list, otherwise the run is silently discarded;
buffer and flags are reset in both cases.  In particular Scenario B
(one run, soc 20→80, 30 kWh total, design 50 kWh) yields SoH 100.00. -/
theorem claim_C3_closure_math :
    (∀ (s : ProcState) (first : ℚ × ℚ) (rest : List (ℚ × ℚ)),
      s.charge_end = true → s.current_charge = first :: rest →
      closurePhase s =
        some { s with
               charge_results :=
                 if runDelta (first :: rest) > MIN_DELTA_SOC then
                   s.charge_results ++
                     [get_single_charge_result (((first :: rest).map Prod.snd).sum)
                       (runDelta (first :: rest)) s.design_capacity_kwh]
                 else s.charge_results
               charge_end := false
               reached_full_charge := false
               current_charge := [] }) ∧
    (∀ total delta cap : ℚ,
      get_single_charge_result total delta cap = total * 100 / delta / cap * 100) ∧
    handle_battery_data_extraction
        { vehicle := exProfile, logs := some [exChargeLog1, exChargeLog2] } =
      ExtractResult.ok
        { vehicle_info :=
            { vin := "WVWZZZ", make := "VW", model := "ID3", year := 2021,
              design_capacity_kwh := 50 }
          soh := some 100
          cdc_data := { overall_cycles := 3/5, charge_cycles := 3/5, discharge_cycles := 0 }
          anomalies :=
            { voltage_range_anomalies := [], voltage_difference_anomalies := [],
              temperature_range_anomalies := [], temperature_difference_anomalies := [] } } := by
  refine ⟨closurePhase_closes, fun total delta cap => rfl, ?_⟩
  exact scenarioB_eval

/-- C3 witness: the closure rule applied to a concrete qualifying run
(soc 20→80, energies 10 and 20 kWh, design capacity 50) appends SoH 100. -/
theorem claim_C3_closure_math_witness :
    closurePhase
        { initProcessor 50 400 with
          charge_end := true
          current_charge := [((20 : ℚ), (10 : ℚ)), ((80 : ℚ), (20 : ℚ))] } =
      some { initProcessor 50 400 with charge_results := [100] } := by
  rw [claim_C3_closure_math.1 _ ((20 : ℚ), (10 : ℚ)) [((80 : ℚ), (20 : ℚ))] rfl rfl]
  norm_num [runDelta, get_single_charge_result, MIN_DELTA_SOC, initProcessor]

/-- C4: the first sample only seeds `last_soc`; each later sample adds
`|soc_i - soc_(i-1)|` to the overall accumulator and, when its event is
Charge, to the charge accumulator; finalization rounds each accumulator
over 100 to 2 decimals and derives the discharge count from the two
already-rounded values. -/
theorem claim_C4_cycle_counting :
    (∀ (s : ProcState) (soc : ℚ) (ev : EventKind),
      s.last_soc = none →
        handle_overall_soc_changes s soc ev = { s with last_soc := some soc }) ∧
    (∀ (s : ProcState) (soc last : ℚ) (ev : EventKind),
      s.last_soc = some last →
        (handle_overall_soc_changes s soc ev).cumulative_soc_delta =
          s.cumulative_soc_delta + |soc - last| ∧
        (handle_overall_soc_changes s soc ev).cumulative_charge_soc_delta =
          (if ev = EventKind.charge then s.cumulative_charge_soc_delta + |soc - last|
           else s.cumulative_charge_soc_delta) ∧
        (handle_overall_soc_changes s soc ev).last_soc = some soc) ∧
    (∀ s : ProcState,
      get_average_charge_discharge_cycles_data s =
        { overall_cycles := round2 (s.cumulative_soc_delta / 100)
          charge_cycles := round2 (s.cumulative_charge_soc_delta / 100)
          discharge_cycles :=
            round2 (round2 (s.cumulative_soc_delta / 100) -
              round2 (s.cumulative_charge_soc_delta / 100)) }) := by
  refine ⟨?_, ?_, fun s => rfl⟩
  · intro s soc ev h
    rw [handle_overall_soc_changes_eq]
    simp [h]
  · intro s soc last ev h
    rw [handle_overall_soc_changes_eq]
    simp [h]

/-- C4 witness: seeding on the first sample, and delta accumulation on a
subsequent Charge sample. -/
theorem claim_C4_cycle_counting_witness :
    handle_overall_soc_changes (initProcessor 50 400) 50 EventKind.rest =
      { initProcessor 50 400 with last_soc := some 50 } ∧
    (handle_overall_soc_changes { initProcessor 50 400 with last_soc := some 30 } 50
        EventKind.charge).cumulative_soc_delta = 0 + |(50 : ℚ) - 30| :=
  ⟨claim_C4_cycle_counting.1 _ 50 EventKind.rest rfl,
   (claim_C4_cycle_counting.2.1 _ 50 30 EventKind.charge rfl).1⟩

/-- C5: the reported SoH is `None` exactly when the cycle-result list is
empty, and otherwise the arithmetic mean of that list rounded to two
decimals; over a whole analysis the list is empty exactly when no loop
iteration performed a qualifying (ΔSoC > 5) charge-run closure. -/
theorem claim_C5_soh_mean_or_absent :
    (∀ s : ProcState,
      (get_average_soh s = none ↔ s.charge_results = []) ∧
      (s.charge_results ≠ [] →
        get_average_soh s =
          some (round2 (s.charge_results.sum / (s.charge_results.length : ℚ))))) ∧
    (∀ (ld : LogData) (logs : List Log) (b : BatteryData),
      ld.logs = some logs →
      handle_battery_data_extraction ld = ExtractResult.ok b →
      (b.soh = none ↔
        qualifyingClosure
          (initProcessor ld.vehicle.design_capacity_kwh ld.vehicle.nominal_pack_voltage)
          logs = false)) := by
  constructor
  · intro s
    constructor
    · cases h : s.charge_results <;> simp [get_average_soh, h]
    · intro hne
      cases h : s.charge_results with
      | nil => exact absurd h hne
      | cons a l => simp [get_average_soh, h]
  · intro ld logs b hl hok
    unfold handle_battery_data_extraction at hok
    rw [hl] at hok
    cases logs with
    | nil => exact absurd hok (by simp)
    | cons l r =>
      dsimp only at hok
      cases hrun : runLoop
          (initProcessor ld.vehicle.design_capacity_kwh ld.vehicle.nominal_pack_voltage)
          (l :: r) with
      | none => rw [hrun] at hok; exact absurd hok (by simp)
      | some s =>
        rw [hrun] at hok
        simp only [ExtractResult.ok.injEq] at hok
        subst hok
        have hempty := runLoop_results_empty (l :: r) _ s hrun
        have hsoh : get_average_soh s = none ↔ s.charge_results = [] := by
          cases h : s.charge_results <;> simp [get_average_soh, h]
        dsimp only
        rw [hsoh, hempty]
        simp [initProcessor]

/-- C5 witness: Scenario B's run qualifies, so its SoH is present; and on
a state holding one cycle result the average is the rounded mean. -/
theorem claim_C5_soh_mean_or_absent_witness :
    (get_average_soh { initProcessor 50 400 with charge_results := [(100 : ℚ)] } =
      some (round2 (([(100 : ℚ)].sum) / (([(100 : ℚ)].length : ℚ)))) ) ∧
    ((some (100 : ℚ) : Option ℚ) = none ↔
      qualifyingClosure (initProcessor 50 400) [exChargeLog1, exChargeLog2] = false) :=
  ⟨(claim_C5_soh_mean_or_absent.1 _).2 (by simp),
   claim_C5_soh_mean_or_absent.2
     { vehicle := exProfile, logs := some [exChargeLog1, exChargeLog2] }
     [exChargeLog1, exChargeLog2] _ rfl scenarioB_eval⟩

/-- C6: a sample closes the current charge run exactly when it is a
Charge-event sample whose lookahead flag is raised, and the flag computed
from the remaining samples equals the indexed one-sample-lookahead
condition of the source: the next sample exists and is not a Charge
event, or the sample is the last one. -/
theorem claim_C6_closure_lookahead (logs : List Log) (i : Nat) (h : i < logs.length) :
    logs.drop i = logs.get ⟨i, h⟩ :: logs.drop (i + 1) ∧
    (((logs.get ⟨i, h⟩).event = EventKind.charge ∧
        chargeEndOf (logs.drop (i + 1)) = true) ↔
      ((logs.get ⟨i, h⟩).event = EventKind.charge ∧
        ((∃ h' : i + 1 < logs.length,
            (logs.get ⟨i + 1, h'⟩).event ≠ EventKind.charge) ∨
          i + 1 = logs.length))) := by
  constructor
  · set_option linter.unnecessarySimpa false in
    simpa using List.drop_eq_getElem_cons h
  · refine and_congr_right fun _ => ?_
    cases hd : logs.drop (i + 1) with
    | nil =>
      have hlen : logs.length ≤ i + 1 := List.drop_eq_nil_iff.mp hd
      have heq : i + 1 = logs.length := le_antisymm h hlen
      simp [chargeEndOf, heq]
    | cons a t =>
      have hlt : i + 1 < logs.length := by
        by_contra hc
        rw [List.drop_eq_nil_iff.mpr (by omega : logs.length ≤ i + 1)] at hd
        exact absurd hd (by simp)
      have h2 := List.drop_eq_getElem_cons hlt
      rw [hd] at h2
      have ha : a = logs.get ⟨i + 1, hlt⟩ := by
        have h3 := (List.cons.injEq a t _ _).mp h2.symm.symm
        simpa [List.get_eq_getElem] using h3.1
      constructor
      · intro hce
        refine Or.inl ⟨hlt, ?_⟩
        rw [← ha]
        simpa [chargeEndOf] using hce
      · intro hor
        rcases hor with ⟨h', hne⟩ | heq
        · have hfin : logs.get ⟨i + 1, h'⟩ = logs.get ⟨i + 1, hlt⟩ := rfl
          rw [hfin, ← ha] at hne
          simpa [chargeEndOf] using hne
        · exact absurd heq (by omega)

/-- C6 witness: in the two-sample Scenario-B sequence the first Charge
sample does not close the run (the next sample is also Charge). -/
theorem claim_C6_closure_lookahead_witness :
    ([exChargeLog1, exChargeLog2] : List Log).drop 0 =
      ([exChargeLog1, exChargeLog2] : List Log).get ⟨0, by decide⟩ ::
        ([exChargeLog1, exChargeLog2] : List Log).drop 1 :=
  (claim_C6_closure_lookahead [exChargeLog1, exChargeLog2] 0 (by decide)).1

/-- C7: per sample, a voltage-imbalance anomaly is emitted exactly when
the cell spread in mV exceeds the threshold selected by the c-rate
(60 mV under load, i.e. c-rate > 0.1; 30 mV at rest), tagged with the
applied regime; independently a range anomaly fires for max above 4.2 V
("too high") and for min below 2.5 V ("too low"); and the per-sample
lists are appended verbatim to the accumulators.  Scenario C: cells
`[4.25, 4.10]` fire "too high" and the imbalance anomaly regardless of
pack current. -/
theorem claim_C7_voltage_anomalies (dc nv : ℚ) (log : Log) :
    ((get_voltage_anomalies dc nv log).voltage_difference_anomalies ≠ none ↔
      (listMax log.cell_voltages - listMin log.cell_voltages) * 1000 >
        (if |log.pack_current| / (dc * 1000 / nv) > C_RATE_LOAD_THRESHOLD
         then IMBALANCE_MV_UNDER_LOAD else IMBALANCE_MV_AT_REST)) ∧
    ((listMax log.cell_voltages - listMin log.cell_voltages) * 1000 >
        (if |log.pack_current| / (dc * 1000 / nv) > C_RATE_LOAD_THRESHOLD
         then IMBALANCE_MV_UNDER_LOAD else IMBALANCE_MV_AT_REST) →
      (get_voltage_anomalies dc nv log).voltage_difference_anomalies =
        some [{ voltage_difference :=
                  (listMax log.cell_voltages - listMin log.cell_voltages) * 1000
                comment :=
                  if |log.pack_current| / (dc * 1000 / nv) > C_RATE_LOAD_THRESHOLD
                  then "Cell voltage difference exceeds threshold under load"
                  else "Cell voltage difference exceeds threshold at rest"
                threshold :=
                  if |log.pack_current| / (dc * 1000 / nv) > C_RATE_LOAD_THRESHOLD
                  then IMBALANCE_MV_UNDER_LOAD else IMBALANCE_MV_AT_REST
                timestamp := log.ts }]) ∧
    ((∃ a ∈ voltage_range_list log, a.comment = "Cell voltage too high") ↔
      listMax log.cell_voltages > MAX_CELL_VOLTAGE) ∧
    ((∃ a ∈ voltage_range_list log, a.comment = "Cell voltage too low") ↔
      listMin log.cell_voltages < MIN_CELL_VOLTAGE) ∧
    (∀ s : ProcState,
      (handle_anomalies_detection s log).voltage_range_anomalies =
        s.voltage_range_anomalies ++ voltage_range_list log ∧
      (handle_anomalies_detection s log).voltage_difference_anomalies =
        s.voltage_difference_anomalies ++
          voltage_difference_list s.design_capacity_kwh s.nominal_pack_voltage log) ∧
    (∀ (ts' : String) (ev : EventKind) (soc e cur : ℚ) (temps : List ℚ),
      (∃ a ∈ voltage_range_list ⟨ts', ev, soc, e, cur, [425/100, 410/100], temps⟩,
        a.comment = "Cell voltage too high") ∧
      voltage_difference_list dc nv ⟨ts', ev, soc, e, cur, [425/100, 410/100], temps⟩ ≠ []) := by
  refine ⟨?_, ?_, ?_, ?_, ?_, ?_⟩
  · by_cases hgt : (listMax log.cell_voltages - listMin log.cell_voltages) * 1000 >
        (if |log.pack_current| / (dc * 1000 / nv) > C_RATE_LOAD_THRESHOLD
         then IMBALANCE_MV_UNDER_LOAD else IMBALANCE_MV_AT_REST) <;>
      simp [get_voltage_anomalies, voltage_difference_list, hgt]
  · intro hgt
    simp [get_voltage_anomalies, voltage_difference_list, hgt]
  · by_cases hmax : listMax log.cell_voltages > MAX_CELL_VOLTAGE <;>
      by_cases hmin : listMin log.cell_voltages < MIN_CELL_VOLTAGE <;>
      simp [voltage_range_list, hmax, hmin]
  · by_cases hmax : listMax log.cell_voltages > MAX_CELL_VOLTAGE <;>
      by_cases hmin : listMin log.cell_voltages < MIN_CELL_VOLTAGE <;>
      simp [voltage_range_list, hmax, hmin]
  · intro s
    rw [handle_anomalies_detection_eq]
    exact ⟨rfl, rfl⟩
  · intro ts' ev soc e cur temps
    constructor
    · refine ⟨{ min_voltage := 41/10, max_voltage := 425/100,
                max_allowed_voltage := MAX_CELL_VOLTAGE,
                min_allowed_voltage := MIN_CELL_VOLTAGE,
                comment := "Cell voltage too high", timestamp := ts' }, ?_, rfl⟩
      norm_num [voltage_range_list, listMin, listMax, MAX_CELL_VOLTAGE, MIN_CELL_VOLTAGE,
        max_def, min_def]
    · unfold voltage_difference_list
      norm_num [listMin, listMax, max_def, min_def]
      split <;>
        norm_num [IMBALANCE_MV_AT_REST, IMBALANCE_MV_UNDER_LOAD]

/-- C7 witness: the Scenario-C sample fires the "too high" range anomaly
and the imbalance anomaly at zero pack current and 50 kWh / 400 V. -/
theorem claim_C7_voltage_anomalies_witness :
    (∃ a ∈ voltage_range_list exAnomalousLog, a.comment = "Cell voltage too high") ∧
    voltage_difference_list 50 400 exAnomalousLog ≠ [] :=
  (claim_C7_voltage_anomalies 50 400 exAnomalousLog).2.2.2.2.2
    "t3" EventKind.rest 50 0 0 [25, 25]

/-- C8: run closure never fails on empty-buffer access: the suppressed
run would leave an empty buffer only with the full-charge flag raised,
and the flag is raised only after a sample was buffered, so the
`IndexError` branch is unreachable and every input with at least one
sample produces an assembled result. -/
theorem claim_C8_closure_never_fails (ld : LogData) :
    handle_battery_data_extraction ld ≠ ExtractResult.indexError ∧
    (∀ (l : Log) (r : List Log), ld.logs = some (l :: r) →
      ∃ b, handle_battery_data_extraction ld = ExtractResult.ok b) := by
  have hrun : ∀ (l : Log) (r : List Log),
      ∃ s', runLoop
        (initProcessor ld.vehicle.design_capacity_kwh ld.vehicle.nominal_pack_voltage)
        (l :: r) = some s' := by
    intro l r
    refine runLoop_total (l :: r) _ ?_
    intro h
    simp [initProcessor] at h
  constructor
  · unfold handle_battery_data_extraction
    cases hl : ld.logs with
    | none => simp
    | some logs =>
      cases logs with
      | nil => simp
      | cons l r =>
        obtain ⟨s', hs'⟩ := hrun l r
        simp [hs']
  · intro l r hl
    unfold handle_battery_data_extraction
    rw [hl]
    obtain ⟨s', hs'⟩ := hrun l r
    dsimp only
    rw [hs']
    exact ⟨_, rfl⟩

/-- C9: anomaly detection is purely per-sample: for inputs over the same
vehicle whose sample sequences are permutations of one another (in
particular transpositions of two samples), the four anomaly sequences of
the results are permutations of one another (the same records fire), and
each output sequence is exactly the per-sample lists concatenated in the
(new) sample order. -/
theorem claim_C9_reorder_invariance (ld ld' : LogData) (logs logs' : List Log)
    (b b' : BatteryData)
    (hveh : ld.vehicle = ld'.vehicle)
    (hl : ld.logs = some logs) (hl' : ld'.logs = some logs')
    (hperm : logs.Perm logs')
    (hok : handle_battery_data_extraction ld = ExtractResult.ok b)
    (hok' : handle_battery_data_extraction ld' = ExtractResult.ok b') :
    b.anomalies.voltage_range_anomalies.Perm b'.anomalies.voltage_range_anomalies ∧
    b.anomalies.voltage_difference_anomalies.Perm
      b'.anomalies.voltage_difference_anomalies ∧
    b.anomalies.temperature_range_anomalies.Perm
      b'.anomalies.temperature_range_anomalies ∧
    b.anomalies.temperature_difference_anomalies.Perm
      b'.anomalies.temperature_difference_anomalies ∧
    b.anomalies.voltage_range_anomalies = logs.flatMap voltage_range_list ∧
    b'.anomalies.voltage_range_anomalies = logs'.flatMap voltage_range_list ∧
    b.anomalies.voltage_difference_anomalies =
      logs.flatMap
        (voltage_difference_list ld.vehicle.design_capacity_kwh
          ld.vehicle.nominal_pack_voltage) ∧
    b.anomalies.temperature_range_anomalies = logs.flatMap temperature_range_list ∧
    b.anomalies.temperature_difference_anomalies =
      logs.flatMap temperature_difference_list := by
  obtain ⟨a1, a2, a3, a4⟩ := extraction_anomalies ld logs b hl hok
  obtain ⟨c1, c2, c3, c4⟩ := extraction_anomalies ld' logs' b' hl' hok'
  rw [← hveh] at c2
  refine ⟨?_, ?_, ?_, ?_, a1, c1, a2, a3, a4⟩
  · rw [a1, c1]; exact hperm.flatMap_right _
  · rw [a2, c2]; exact hperm.flatMap_right _
  · rw [a3, c3]; exact hperm.flatMap_right _
  · rw [a4, c4]; exact hperm.flatMap_right _

/-- C9 witness: swapping a benign Rest sample with an anomalous sample
leaves the fired voltage records the same. -/
theorem claim_C9_reorder_invariance_witness :
    ([exHighRec] : List VRangeAnomaly).Perm [exHighRec] ∧
    ([exDiffRec] : List VDiffAnomaly).Perm [exDiffRec] :=
  ⟨(claim_C9_reorder_invariance
      { vehicle := exProfile, logs := some [exRestLog, exAnomalousLog] }
      { vehicle := exProfile, logs := some [exAnomalousLog, exRestLog] }
      [exRestLog, exAnomalousLog] [exAnomalousLog, exRestLog] _ _
      rfl rfl rfl (List.Perm.swap exAnomalousLog exRestLog [])
      evalRestAnom evalAnomRest).1,
   (claim_C9_reorder_invariance
      { vehicle := exProfile, logs := some [exRestLog, exAnomalousLog] }
      { vehicle := exProfile, logs := some [exAnomalousLog, exRestLog] }
      [exRestLog, exAnomalousLog] [exAnomalousLog, exRestLog] _ _
      rfl rfl rfl (List.Perm.swap exAnomalousLog exRestLog [])
      evalRestAnom evalAnomRest).2.1⟩

/-- C10: the assembled anomalies object always carries all four
sequences (present even when empty), although the per-sample helpers
return conditionally-present groups (`none` when nothing fired); a
benign non-empty input yields all four sequences present and empty. -/
theorem claim_C10_always_present_groups :
    (∀ s : ProcState,
      get_detected_anomalies s =
        { voltage_range_anomalies := s.voltage_range_anomalies
          voltage_difference_anomalies := s.voltage_difference_anomalies
          temperature_range_anomalies := s.temperature_range_anomalies
          temperature_difference_anomalies := s.temperature_difference_anomalies }) ∧
    (∀ (dc nv : ℚ) (log : Log),
      voltage_difference_list dc nv log = [] → voltage_range_list log = [] →
        get_voltage_anomalies dc nv log =
          { voltage_difference_anomalies := none, voltage_range_anomalies := none }) ∧
    (∀ log : Log,
      temperature_range_list log = [] → temperature_difference_list log = [] →
        get_temperature_anomalies log =
          { temperature_range_anomalies := none
            temperature_difference_anomalies := none }) ∧
    handle_battery_data_extraction { vehicle := exProfile, logs := some [exRestLog] } =
      ExtractResult.ok
        { vehicle_info :=
            { vin := "WVWZZZ", make := "VW", model := "ID3", year := 2021,
              design_capacity_kwh := 50 }
          soh := none
          cdc_data := { overall_cycles := 0, charge_cycles := 0, discharge_cycles := 0 }
          anomalies :=
            { voltage_range_anomalies := []
              voltage_difference_anomalies := []
              temperature_range_anomalies := []
              temperature_difference_anomalies := [] } } := by
  refine ⟨fun s => rfl, ?_, ?_, evalRestOnly⟩
  · intro dc nv log h1 h2
    simp [get_voltage_anomalies, h1, h2]
  · intro log h1 h2
    simp [get_temperature_anomalies, h1, h2]

/-- C10 witness: on the benign Rest sample, the per-sample voltage
helper returns both groups absent. -/
theorem claim_C10_always_present_groups_witness :
    get_voltage_anomalies 50 400 exRestLog =
      { voltage_difference_anomalies := none, voltage_range_anomalies := none } :=
  claim_C10_always_present_groups.2.1 50 400 exRestLog
    ((benign_sample_lists exRestLog rfl rfl rfl).2.1 50 400)
    (benign_sample_lists exRestLog rfl rfl rfl).1

/-- C8 witness: a one-sample input produces an assembled result. -/
theorem claim_C8_closure_never_fails_witness :
    ∃ b, handle_battery_data_extraction { vehicle := exProfile, logs := some [exRestLog] } =
      ExtractResult.ok b :=
  (claim_C8_closure_never_fails { vehicle := exProfile, logs := some [exRestLog] }).2
    exRestLog [] rfl

end EvStats
